import Mathlib

/-!
# Slack release notifier (`slack.go`)

A shallow embedding of `SlackSender.Send`: the payload it builds from a
`Repository`, the JSON document it posts, and the way it classifies the
outcome of the single HTTP round trip.

Library calls whose result depends on the outside world (`url.Parse` inside
`http.NewRequest`, `http.DefaultClient.Do`, `ioutil.ReadAll`) are supplied by
a `Net` record of oracles; `Send` returns, next to its error, the list of
requests it handed to the client.
-/

namespace SlackNotifier

/-! ## Go values used by `slack.go` -/

/-- A Go `error` value. `external` is an error produced by a library call and
carried through untouched; `errorf` is the error created by `fmt.Errorf`,
identified by its message. -/
inductive GoError where
  | external (id : String)
  | errorf (msg : String)
  deriving DecidableEq, Repr

/-- The text of `err.Error()`. -/
def GoError.Error : GoError → String
  | .external id => id
  | .errorf msg => msg

/-- Go renders the extra operands of a format as `%!(EXTRA string=a, string=b)`. -/
def extraOperands : List String → List Char
  | [] => []
  | [a] => "string=".data ++ a.data
  | a :: b :: rest => "string=".data ++ a.data ++ ", ".data ++ extraOperands (b :: rest)

/-- The formatting loop of `fmt.Sprintf` on string operands, for the verbs
`slack.go` uses: `%s` writes the next operand unchanged (`%!s(MISSING)` when
none is left), `%%` writes a percent sign, a trailing `%` writes `%!(NOVERB)`,
every other character is copied, and operands left over at the end are
reported as `%!(EXTRA ...)`. Other verbs, flags and widths do not occur in
`slack.go`; such a `%` is copied like an ordinary character. -/
def sprintfChars : List Char → List String → List Char
  | [], [] => []
  | [], a :: rest => "%!(EXTRA ".data ++ extraOperands (a :: rest) ++ [')']
  | ['%'], args => "%!(NOVERB)".data ++ sprintfChars [] args
  | '%' :: 's' :: fmt, [] => "%!s(MISSING)".data ++ sprintfChars fmt []
  | '%' :: 's' :: fmt, a :: rest => a.data ++ sprintfChars fmt rest
  | '%' :: '%' :: fmt, args => '%' :: sprintfChars fmt args
  | c :: fmt, args => c :: sprintfChars fmt args

/-- Model of `fmt.Sprintf(format, operands...)` for string operands. -/
def Sprintf (format : String) (operands : List String) : String :=
  ⟨sprintfChars format.data operands⟩

/-- Model of `fmt.Errorf(format, operands...)` (no `%w` verb): an error whose
message is the formatted text. -/
def Errorf (format : String) (operands : List String) : GoError :=
  .errorf (Sprintf format operands)

/-- An instant as Go's `time.Time` keeps it: whole seconds, counted here from
1970-01-01T00:00:00Z, and the nanoseconds within that second, which the
`time` package always normalises into `[0, 999999999]`. `Send` does no
arithmetic on the seconds, so they are an unbounded integer here. -/
structure Time where
  sec : Int
  nsec : Fin 1000000000
  deriving DecidableEq, Repr

/-- Model of `time.Time.Unix`: the seconds count of the instant; the nanosecond part
is dropped. -/
def Time.Unix (t : Time) : Int := t.sec

/-- Model of `time.Time.UnixNano`: the instant in nanoseconds since the Unix epoch. -/
def Time.UnixNano (t : Time) : Int := t.sec * 1000000000 + (t.nsec.val : Int)

/-- Days from 0001-01-01 to January 1 of `year` (proleptic Gregorian, `year ≥ 1`). -/
def daysBeforeYear (year : Nat) : Nat :=
  let y := year - 1
  365 * y + y / 4 - y / 100 + y / 400

/-- Leap-year rule of the Gregorian calendar. -/
def isLeap (year : Nat) : Bool :=
  year % 4 == 0 && (year % 100 != 0 || year % 400 == 0)

/-- Days of a non-leap year before the first of `month` (1 = January). -/
def daysBeforeMonth (month : Nat) : Nat :=
  ([0, 31, 59, 90, 120, 151, 181, 212, 243, 273, 304, 334].getD (month - 1) 0)

/-- Model of `time.Date(year, month, day, hour, min, sec, nsec, time.UTC)` for
calendar fields that are in range (year ≥ 1, month 1..12, day 1..31, ...). -/
def DateUTC (year month day hour min sec : Nat) (nsec : Fin 1000000000) : Time :=
  let leapDay := if isLeap year && decide (month > 2) then 1 else 0
  let days : Int := (daysBeforeYear year + daysBeforeMonth month + leapDay + (day - 1) : Nat)
  { sec := (days - 719162) * 86400 + (hour * 3600 + min * 60 + sec : Nat), nsec := nsec }

/-- Modelled from the spec: the URL type of `Repository.URL` and
`Release.URL` is declared outside `slack.go`. `Send` only calls `String()`
on it, so a URL is carried as the text that call returns. -/
structure URL where
  text : String
  deriving DecidableEq, Repr

/-- The `String()` method of a URL. -/
def URL.String (u : URL) : String := u.text

/-- Modelled from the spec: the `Release` type is declared outside `slack.go`
(spec §3: name, description, canonical URL, publish timestamp, prerelease
flag); the field names are the ones `Send` reads. -/
structure Release where
  Name : String
  Description : String
  URL : URL
  PublishedAt : Time
  IsPrerelease : Bool
  deriving DecidableEq, Repr

/-- Modelled from the spec: the `Repository` type is declared outside `slack.go`
(spec §3: owner name, repository name, canonical URL, embedded release); the
field names are the ones `Send` reads. -/
structure Repository where
  Owner : String
  Name : String
  URL : URL
  Release : Release
  deriving DecidableEq, Repr

/-- SlackSender has the hook to send slack notifications. -/
structure SlackSender where
  Hook : String
  deriving DecidableEq, Repr

/-- The `AttachmentField` struct. -/
structure AttachmentField where
  Title : String
  Value : String
  Short : Bool
  deriving DecidableEq, Repr

/-- The `SlackAttachment` struct; `TS` is an `int64`. -/
structure SlackAttachment where
  Fallback : String
  Text : String
  Pretext : String
  Color : String
  Title : String
  TitleLink : String
  Fields : List AttachmentField
  Footer : String
  FooterIcon : String
  MarkdownIn : List String
  TS : Int
  deriving DecidableEq, Repr

/-- The `SlackPayload` struct. -/
structure SlackPayload where
  Attachments : List SlackAttachment
  deriving DecidableEq, Repr

/-! ## JSON encoding (`encoding/json` on the three payload structs) -/

/-- A JSON document: what `json.Marshal` writes, before it is laid out as bytes.
An object keeps its members in the order they are written. -/
inductive Json where
  | null
  | bool (b : Bool)
  | num (n : Int)
  | str (s : String)
  | arr (items : List Json)
  | obj (members : List (String × Json))

/-- The member names of a JSON object, in order; `none` for any other value. -/
def Json.keys : Json → Option (List String)
  | .obj members => some (members.map Prod.fst)
  | _ => none

/-- The value bound to `key` in a JSON object (first binding). -/
def Json.get (key : String) : Json → Option Json
  | .obj members => (members.find? (fun kv => kv.1 == key)).map Prod.snd
  | _ => none

/-- Encoding of an `AttachmentField`: one member per field, named by its `json` tag,
in declaration order. -/
def AttachmentField.toJson (f : AttachmentField) : Json :=
  .obj [("title", .str f.Title), ("value", .str f.Value), ("short", .bool f.Short)]

/-- Encoding of a `SlackAttachment`: one member per field, named by its `json` tag,
in declaration order; the two slices become arrays. -/
def SlackAttachment.toJson (a : SlackAttachment) : Json :=
  .obj [
    ("fallback", .str a.Fallback),
    ("text", .str a.Text),
    ("pretext", .str a.Pretext),
    ("color", .str a.Color),
    ("title", .str a.Title),
    ("title_link", .str a.TitleLink),
    ("fields", .arr (a.Fields.map AttachmentField.toJson)),
    ("footer", .str a.Footer),
    ("footer_icon", .str a.FooterIcon),
    ("mrkdwn_in", .arr (a.MarkdownIn.map Json.str)),
    ("ts", .num a.TS)]

/-- Encoding of a `SlackPayload`. -/
def SlackPayload.toJson (p : SlackPayload) : Json :=
  .obj [("attachments", .arr (p.Attachments.map SlackAttachment.toJson))]

/-- Model of `json.Marshal(payload)`. The payload types hold only strings, booleans,
an `int64` and slices of those, none of which `encoding/json` rejects, so the
error branch of the Go signature is never taken. -/
def jsonMarshal (payload : SlackPayload) : Except GoError Json :=
  .ok payload.toJson

/-! ## HTTP round trip -/

/-- A `time.Duration`, in nanoseconds. -/
abbrev Duration := Int

/-- The constant `time.Second`. -/
def Second : Duration := 1000000000

/-- The part of a `context.Context` an HTTP request uses: the time allowed from the
creation of the context, `none` for `context.Background()`. -/
structure Context where
  timeout : Option Duration
  deriving DecidableEq, Repr

/-- The context `context.Background()`. -/
def Background : Context := { timeout := none }

/-- Model of `context.WithTimeout(parent, d)` for a parent without a deadline. -/
def WithTimeout (_parent : Context) (d : Duration) : Context := { timeout := some d }

/-- An outgoing `http.Request`: method, target, body document and context. -/
structure Request where
  Method : String
  URL : String
  Body : Json
  ctx : Context

/-- Model of `req.WithContext(ctx)`: a copy of the request with its context replaced. -/
def Request.WithContext (req : Request) (ctx : Context) : Request := { req with ctx := ctx }

/-- The result of `ioutil.ReadAll(resp.Body)`: the bytes read and the read error, if any. -/
structure BodyRead where
  data : String
  err : Option GoError
  deriving DecidableEq, Repr

/-- An `http.Response` as `Send` sees it. `Body` is what reading the body to the
end gives. -/
structure Response where
  Status : String
  StatusCode : Int
  Body : BodyRead
  deriving DecidableEq, Repr

/-- Model of `ioutil.ReadAll(resp.Body)`. -/
def ReadAll (body : BodyRead) : String × Option GoError := (body.data, body.err)

/-- The constant `http.MethodPost`. -/
def MethodPost : String := "POST"

/-- The constant `http.StatusOK`. -/
def StatusOK : Int := 200

/-- The outside world of one `Send` call: `parse raw` is the error `url.Parse`
reports for the webhook string (`none` when it parses), `roundTrip req` is
what `http.DefaultClient.Do(req)` returns. -/
structure Net where
  parse : String → Option GoError
  roundTrip : Request → Except GoError Response

/-- Model of `http.NewRequest(method, url, body)`: fails with the parse error of the
URL, otherwise builds a request under `context.Background()`. The method
passed by `Send` is the valid token `POST`. -/
def NewRequest (net : Net) (method url : String) (body : Json) : Except GoError Request :=
  match net.parse url with
  | some err => .error err
  | none => .ok { Method := method, URL := url, Body := body, ctx := Background }

/-- What one call of `Send` did: the requests handed to `http.DefaultClient.Do`, in
order, and the returned error (`none` for `nil`). -/
structure Outcome where
  calls : List Request
  err : Option GoError

/-! ## `SlackSender.Send` -/

/-- Lines 44-85 of `slack.go`: the payload built from the repository. -/
def buildPayload (repository : Repository) : SlackPayload :=
  let borderColor : String :=
    if repository.Release.IsPrerelease then "#FFC600" else "#15e415"
  let textContent := Sprintf "<%s|%s/%s>: <%s|%s> released"
    [repository.URL.String, repository.Owner, repository.Name,
     repository.Release.URL.String, repository.Release.Name]
  { Attachments := [{
      Fallback := textContent
      Text := textContent
      Pretext := Sprintf "*%s/%s* - _%s_"
        [repository.Owner, repository.Name, repository.Release.Name]
      Title := repository.Release.Name
      TitleLink := repository.Release.URL.String
      Color := borderColor
      Fields := [{
        Title := "Description"
        Value := repository.Release.Description
        Short := false }]
      TS := repository.Release.PublishedAt.Unix
      Footer := " "
      FooterIcon := "https://assets-cdn.github.com/images/modules/logos_page/GitHub-Mark.png"
      MarkdownIn := ["pretext"] }] }

/-- Send a notification with a formatted message build from the repository.
The two deferred calls (`cancel()`, `resp.Body.Close()`) release resources and
do not change what is returned; they are left out. -/
def Send (net : Net) (s : SlackSender) (repository : Repository) : Outcome :=
  let payload := buildPayload repository
  match jsonMarshal payload with
  | .error err => { calls := [], err := some err }
  | .ok payloadData =>
    match NewRequest net MethodPost s.Hook payloadData with
    | .error err => { calls := [], err := some err }
    | .ok req =>
      let ctx := WithTimeout Background (5 * Second)
      let req := req.WithContext ctx
      match net.roundTrip req with
      | .error err => { calls := [req], err := some err }
      | .ok resp =>
        if resp.StatusCode ≠ StatusOK then
          let (body, _) := ReadAll resp.Body
          { calls := [req],
            err := some (Errorf "request didn't respond with 200 OK: %s, %s" [resp.Status, body]) }
        else
          { calls := [req], err := none }

/-- The text `sub` occurs in `s` as a contiguous run of characters. -/
def Contains (s sub : String) : Prop := sub.data <:+: s.data

instance (s sub : String) : Decidable (Contains s sub) := by
  unfold Contains; infer_instance

/-- Lines 92-97 of `slack.go`: the request `Send` hands to the client once the
webhook URL has parsed: a POST to the hook carrying the encoded payload,
under a context with a 5 second timeout. -/
def requestOf (s : SlackSender) (repository : Repository) : Request :=
  { Method := MethodPost
    URL := s.Hook
    Body := (buildPayload repository).toJson
    ctx := WithTimeout Background (5 * Second) }

/-- Unix seconds of an instant by truncation toward zero of its exact value. -/
def truncSeconds (t : Time) : Int := Int.tdiv t.UnixNano 1000000000

/-- Unix seconds of an instant by rounding its exact value down. -/
def floorSeconds (t : Time) : Int := Int.fdiv t.UnixNano 1000000000

/-! ## Sample inputs -/

/-- The repository of the spec's example scenario. -/
def acmeWidget : Repository :=
  { Owner := "acme"
    Name := "widget"
    URL := ⟨"https://github.com/acme/widget"⟩
    Release :=
      { Name := "v1.2.0"
        Description := "Bug fixes"
        URL := ⟨"https://github.com/acme/widget/releases/v1.2.0"⟩
        PublishedAt := DateUTC 2023 1 1 0 0 0 0
        IsPrerelease := false } }

/-- A sender with a well-formed hook. -/
def sampleSender : SlackSender := { Hook := "https://hooks.slack.com/services/T0/B0/x" }

/-- A response with the given status line, code and body, read without error. -/
def respond (status : String) (code : Int) (body : String) : Response :=
  { Status := status, StatusCode := code, Body := { data := body, err := none } }

/-- A world in which every URL parses and every request gets `resp`. -/
def netAnswering (resp : Response) : Net :=
  { parse := fun _ => none, roundTrip := fun _ => .ok resp }

/-- A world in which no URL parses; a request, were one made, would get a 200. -/
def netBadURL (e : GoError) : Net :=
  { parse := fun _ => some e, roundTrip := fun _ => .ok (respond "200 OK" 200 "ok") }

/-- A world in which every URL parses and every round trip fails with `e`. -/
def netUnreachable (e : GoError) : Net :=
  { parse := fun _ => none, roundTrip := fun _ => .error e }

/-- A 500 response whose body yields "oops" and then a read error. -/
def resp500 : Response :=
  { Status := "500 Internal Server Error"
    StatusCode := 500
    Body := { data := "oops", err := some (.external "unexpected EOF") } }

/-- The sample repository with its release published at 1969-12-31T23:59:59.5Z,
half a second before the Unix epoch: `time.Unix(-1, 500000000)`. -/
def halfSecondBeforeEpoch : Repository :=
  { acmeWidget with
    Release := { acmeWidget.Release with PublishedAt := { sec := -1, nsec := 500000000 } } }

/-- A repository whose strings are all empty. -/
def emptyRepository : Repository :=
  { Owner := ""
    Name := ""
    URL := ⟨""⟩
    Release :=
      { Name := "", Description := "", URL := ⟨""⟩, PublishedAt := { sec := 0, nsec := 0 },
        IsPrerelease := false } }

/-! ## Helper lemmas -/

theorem Sprintf_status (status body : String) :
    Sprintf "request didn't respond with 200 OK: %s, %s" [status, body]
      = "request didn't respond with 200 OK: " ++ status ++ ", " ++ body := by
  simp [Sprintf, sprintfChars, String.ext_iff]

theorem Sprintf_text (a b c d e : String) :
    Sprintf "<%s|%s/%s>: <%s|%s> released" [a, b, c, d, e]
      = "<" ++ a ++ "|" ++ b ++ "/" ++ c ++ ">: <" ++ d ++ "|" ++ e ++ "> released" := by
  simp [Sprintf, sprintfChars, String.ext_iff]

theorem Sprintf_pretext (a b c : String) :
    Sprintf "*%s/%s* - _%s_" [a, b, c] = "*" ++ a ++ "/" ++ b ++ "* - _" ++ c ++ "_" := by
  simp [Sprintf, sprintfChars, String.ext_iff]

/-- When the hook does not parse, `Send` stops before the client is called. -/
theorem Send_parse_error (net : Net) (s : SlackSender) (repository : Repository)
    (e : GoError) (h : net.parse s.Hook = some e) :
    Send net s repository = { calls := [], err := some e } := by
  simp [Send, jsonMarshal, NewRequest, h]

/-- When the hook parses, `Send` calls the client once, with `requestOf`, and the
result is decided by what the client returns. -/
theorem Send_parse_ok (net : Net) (s : SlackSender) (repository : Repository)
    (h : net.parse s.Hook = none) :
    Send net s repository =
      match net.roundTrip (requestOf s repository) with
      | .error err => { calls := [requestOf s repository], err := some err }
      | .ok resp =>
        if resp.StatusCode ≠ StatusOK then
          { calls := [requestOf s repository],
            err := some (Errorf "request didn't respond with 200 OK: %s, %s"
              [resp.Status, resp.Body.data]) }
        else
          { calls := [requestOf s repository], err := none } := by
  simp only [Send, jsonMarshal, NewRequest, h, requestOf, Request.WithContext, ReadAll]

/-- The message of the non-200 error contains both of its operands. -/
theorem status_message_contains (status body : String) :
    Contains ("request didn't respond with 200 OK: " ++ status ++ ", " ++ body) status ∧
    Contains ("request didn't respond with 200 OK: " ++ status ++ ", " ++ body) body := by
  refine ⟨⟨"request didn't respond with 200 OK: ".data, ", ".data ++ body.data, ?_⟩,
    ⟨"request didn't respond with 200 OK: ".data ++ status.data ++ ", ".data, [], ?_⟩⟩
  · simp [String.data_append]
  · simp [String.data_append]

/-! ## Classification of the response -/

/-- C1: when the hook parses and the client returns a response, `Send` returns
no error if and only if the status code of the response is 200, whatever its
status line and body are. -/
theorem Send_nil_iff_status_200 (net : Net) (s : SlackSender) (repository : Repository)
    (resp : Response)
    (hreq : net.parse s.Hook = none)
    (hresp : net.roundTrip (requestOf s repository) = .ok resp) :
    (Send net s repository).err = none ↔ resp.StatusCode = 200 := by
  rw [Send_parse_ok net s repository hreq, hresp]
  by_cases hc : resp.StatusCode = 200
  · simp [StatusOK, hc]
  · simp [StatusOK, hc]

/-- Instances of C1: a 200 with a non-empty body gives no error, and 201 and 204
responses give an error. -/
theorem Send_nil_iff_status_200_witness :
    (Send (netAnswering (respond "200 OK" 200 "not json")) sampleSender acmeWidget).err = none ∧
    (Send (netAnswering (respond "201 Created" 201 "")) sampleSender acmeWidget).err ≠ none ∧
    (Send (netAnswering (respond "204 No Content" 204 "")) sampleSender acmeWidget).err ≠ none :=
  ⟨(Send_nil_iff_status_200 (netAnswering (respond "200 OK" 200 "not json"))
      sampleSender acmeWidget _ rfl rfl).mpr rfl,
   fun h => absurd ((Send_nil_iff_status_200 (netAnswering (respond "201 Created" 201 ""))
      sampleSender acmeWidget _ rfl rfl).mp h) (by decide),
   fun h => absurd ((Send_nil_iff_status_200 (netAnswering (respond "204 No Content" 204 ""))
      sampleSender acmeWidget _ rfl rfl).mp h) (by decide)⟩

/-- C2: when the hook parses and the client returns a response whose status code
is not 200, `Send` returns the error with message
"request didn't respond with 200 OK: <status>, <body>", where <status> is the
status line and <body> the bytes read from the body; the message contains
both, and the read error of the body, present or not, plays no part. -/
theorem Send_non_200_error (net : Net) (s : SlackSender) (repository : Repository)
    (resp : Response)
    (hreq : net.parse s.Hook = none)
    (hresp : net.roundTrip (requestOf s repository) = .ok resp)
    (hcode : resp.StatusCode ≠ 200) :
    (Send net s repository).err
      = some (.errorf ("request didn't respond with 200 OK: " ++ resp.Status ++ ", "
          ++ resp.Body.data)) ∧
    (∃ err, (Send net s repository).err = some err ∧
      Contains err.Error resp.Status ∧ Contains err.Error resp.Body.data) := by
  have hsend : (Send net s repository).err
      = some (.errorf ("request didn't respond with 200 OK: " ++ resp.Status ++ ", "
          ++ resp.Body.data)) := by
    rw [Send_parse_ok net s repository hreq, hresp]
    simp [StatusOK, hcode, Errorf, Sprintf_status]
  exact ⟨hsend, _, hsend, status_message_contains resp.Status resp.Body.data⟩

/-- Instance of C2: a 500 response whose body gives "oops" and then fails to read
yields the error message with the status line and "oops", which contains
"500" and "oops". -/
theorem Send_non_200_error_witness :
    (Send (netAnswering resp500) sampleSender acmeWidget).err
      = some (.errorf "request didn't respond with 200 OK: 500 Internal Server Error, oops") ∧
    Contains "request didn't respond with 200 OK: 500 Internal Server Error, oops" "500" ∧
    Contains "request didn't respond with 200 OK: 500 Internal Server Error, oops" "oops" :=
  ⟨(Send_non_200_error (netAnswering resp500) sampleSender acmeWidget resp500 rfl rfl
      (by decide)).1,
   by decide, by decide⟩

/-- C9: when no response is received, `Send` returns the failing step's own error
value. If building the request fails with `e` (the hook does not parse),
`Send` returns `e` and the client has not been called. If the request is
built and the client fails with `e`, `Send` returns `e` and the client has
been called exactly once, with the POST request. -/
theorem Send_no_response (net : Net) (s : SlackSender) (repository : Repository) (e : GoError) :
    (net.parse s.Hook = some e →
      (Send net s repository).err = some e ∧ (Send net s repository).calls = []) ∧
    (net.parse s.Hook = none → net.roundTrip (requestOf s repository) = .error e →
      (Send net s repository).err = some e ∧
      (Send net s repository).calls = [requestOf s repository] ∧
      (requestOf s repository).Method = "POST" ∧ (requestOf s repository).URL = s.Hook) := by
  constructor
  · intro h
    rw [Send_parse_error net s repository e h]
    exact ⟨rfl, rfl⟩
  · intro h hrt
    rw [Send_parse_ok net s repository h, hrt]
    exact ⟨rfl, rfl, rfl, rfl⟩

/-- Instances of C9: a hook that does not parse, and a connection that is refused. -/
theorem Send_no_response_witness :
    ((Send (netBadURL (.external "parse error")) sampleSender acmeWidget).err
        = some (.external "parse error") ∧
      (Send (netBadURL (.external "parse error")) sampleSender acmeWidget).calls = []) ∧
    ((Send (netUnreachable (.external "connection refused")) sampleSender acmeWidget).err
        = some (.external "connection refused") ∧
      (Send (netUnreachable (.external "connection refused")) sampleSender acmeWidget).calls.length
        = 1) :=
  ⟨(Send_no_response (netBadURL (.external "parse error")) sampleSender acmeWidget
      (.external "parse error")).1 rfl,
   ((Send_no_response (netUnreachable (.external "connection refused")) sampleSender acmeWidget
      (.external "connection refused")).2 rfl rfl).1,
   by rw [((Send_no_response (netUnreachable (.external "connection refused")) sampleSender
      acmeWidget (.external "connection refused")).2 rfl rfl).2.1]; rfl⟩

/-! ## The payload -/

/-- Rounding the exact instant down gives back its seconds count. -/
theorem floorSeconds_eq_sec (t : Time) : floorSeconds t = t.sec := by
  have h := t.nsec.isLt
  unfold floorSeconds Time.UnixNano
  rw [Int.fdiv_eq_ediv _ (by decide)]
  omega

/-- Truncating the exact instant toward zero gives its seconds count, plus one when
the instant is before the epoch and off a whole second. -/
theorem truncSeconds_eq (t : Time) :
    truncSeconds t = if t.sec < 0 ∧ t.nsec.val ≠ 0 then t.sec + 1 else t.sec := by
  have h := t.nsec.isLt
  unfold truncSeconds Time.UnixNano
  by_cases hs : 0 ≤ t.sec
  · rw [Int.tdiv_eq_ediv (by omega) (by decide)]
    rw [if_neg (by omega)]
    omega
  · have hneg : t.sec * 1000000000 + (t.nsec.val : Int)
        = -(-(t.sec * 1000000000 + (t.nsec.val : Int))) := by omega
    rw [hneg, Int.neg_tdiv, Int.tdiv_eq_ediv (by omega) (by decide)]
    split_ifs with hc <;> omega

/-- C3: for every repository the payload has exactly one attachment, and the
field list of that attachment has exactly one element: title "Description",
value the release description as given, short flag false. -/
theorem payload_one_attachment_one_field (repository : Repository) :
    (∃ a, (buildPayload repository).Attachments = [a] ∧
      a.Fields = [{ Title := "Description", Value := repository.Release.Description,
                    Short := false }]) ∧
    (buildPayload emptyRepository).Attachments.map SlackAttachment.Fields
      = [[{ Title := "Description", Value := "", Short := false }]] :=
  ⟨⟨_, rfl, rfl⟩, rfl⟩

/-- C4: for every repository the color of the single attachment is "#FFC600" when
the release is a prerelease and "#15e415" when it is not; the color is a
function of the prerelease flag alone. -/
theorem attachment_color (repository : Repository) :
    (buildPayload repository).Attachments.map SlackAttachment.Color
      = [if repository.Release.IsPrerelease = true then "#FFC600" else "#15e415"] ∧
    (∃ pick : Bool → String, pick true = "#FFC600" ∧ pick false = "#15e415" ∧
      ∀ r : Repository,
        (buildPayload r).Attachments.map SlackAttachment.Color = [pick r.Release.IsPrerelease]) := by
  refine ⟨?_, fun b => if b = true then "#FFC600" else "#15e415", rfl, rfl, fun r => ?_⟩
  · simp [buildPayload]
  · simp [buildPayload]

/-- C5, as stated, fails: for a release published at 1969-12-31T23:59:59.5Z the
ts field is -1, while truncating the publish time toward zero gives 0. -/
theorem ts_not_truncation_before_epoch :
    (buildPayload halfSecondBeforeEpoch).Attachments.map SlackAttachment.TS = [-1] ∧
    truncSeconds halfSecondBeforeEpoch.Release.PublishedAt = 0 ∧
    (buildPayload halfSecondBeforeEpoch).Attachments.map SlackAttachment.TS
      ≠ [truncSeconds halfSecondBeforeEpoch.Release.PublishedAt] := by
  refine ⟨rfl, by decide, by decide⟩

/-- C5, amended: for every publish time the ts field is the publish time in Unix
seconds rounded down (toward negative infinity); it agrees with truncation
toward zero exactly when the time is not before 1970-01-01T00:00:00Z or has
no sub-second part. -/
theorem ts_is_floor_seconds (repository : Repository) :
    (buildPayload repository).Attachments.map SlackAttachment.TS
      = [floorSeconds repository.Release.PublishedAt] ∧
    ((buildPayload repository).Attachments.map SlackAttachment.TS
        = [truncSeconds repository.Release.PublishedAt]
      ↔ (0 ≤ repository.Release.PublishedAt.sec ∨ repository.Release.PublishedAt.nsec.val = 0)) := by
  have hts : (buildPayload repository).Attachments.map SlackAttachment.TS
      = [repository.Release.PublishedAt.sec] := rfl
  rw [hts, floorSeconds_eq_sec, truncSeconds_eq]
  refine ⟨rfl, ?_⟩
  simp only [List.cons.injEq, and_true]
  split_ifs with hc <;> omega

/-- C6: for every repository the pretext of the attachment is
"*" ++ owner ++ "/" ++ name ++ "* - _" ++ release name ++ "_", its title is
the release name and its title link is the string form of the release URL.
For the example repository (acme/widget, release v1.2.0 published
2023-01-01T00:00:00Z, not a prerelease) the pretext is
"*acme/widget* - _v1.2.0_", the color "#15e415" and ts 1672531200. -/
theorem attachment_pretext_title (repository : Repository) :
    (∃ a, (buildPayload repository).Attachments = [a] ∧
      a.Pretext = "*" ++ repository.Owner ++ "/" ++ repository.Name ++ "* - _"
        ++ repository.Release.Name ++ "_" ∧
      a.Title = repository.Release.Name ∧
      a.TitleLink = repository.Release.URL.String) ∧
    (∃ a, (buildPayload acmeWidget).Attachments = [a] ∧
      a.Pretext = "*acme/widget* - _v1.2.0_" ∧ a.Color = "#15e415" ∧ a.TS = 1672531200) := by
  refine ⟨⟨_, rfl, ?_, rfl, rfl⟩, ⟨_, rfl, ?_, ?_, ?_⟩⟩
  · exact Sprintf_pretext _ _ _
  · decide
  · decide
  · decide

/-- C7: for every repository the fallback and the text of the attachment are the
same string, namely "<" ++ repository URL ++ "|" ++ owner ++ "/" ++ name ++
">: <" ++ release URL ++ "|" ++ release name ++ "> released", each input
inserted as it is. -/
theorem attachment_fallback_text (repository : Repository) :
    ∃ a, (buildPayload repository).Attachments = [a] ∧
      a.Fallback = a.Text ∧
      a.Text = "<" ++ repository.URL.String ++ "|" ++ repository.Owner ++ "/"
        ++ repository.Name ++ ">: <" ++ repository.Release.URL.String ++ "|"
        ++ repository.Release.Name ++ "> released" :=
  ⟨_, rfl, rfl, Sprintf_text _ _ _ _ _⟩

/-- C8: for every repository, encoding the payload succeeds; every request `Send`
hands to the client carries the encoded document, and when the hook parses
exactly one such request is made; the document is an object
whose only key is "attachments", bound to an array of one object whose keys
are fallback, text, pretext, color, title, title_link, fields, footer,
footer_icon, mrkdwn_in and ts; fields is an array of objects with the keys
title, value and short; footer is " ", footer_icon is the GitHub-mark image
URL and mrkdwn_in is ["pretext"]. -/
theorem payload_json_shape (net : Net) (s : SlackSender) (repository : Repository) :
    ∃ doc att fields,
      jsonMarshal (buildPayload repository) = .ok doc ∧
      (∀ req ∈ (Send net s repository).calls, req.Body = doc) ∧
      (net.parse s.Hook = none → (Send net s repository).calls.map Request.Body = [doc]) ∧
      doc.keys = some ["attachments"] ∧
      doc.get "attachments" = some (.arr [att]) ∧
      att.keys = some ["fallback", "text", "pretext", "color", "title", "title_link",
        "fields", "footer", "footer_icon", "mrkdwn_in", "ts"] ∧
      att.get "fields" = some (.arr fields) ∧
      (∀ f ∈ fields, f.keys = some ["title", "value", "short"]) ∧
      att.get "footer" = some (.str " ") ∧
      att.get "footer_icon" = some (.str
        "https://assets-cdn.github.com/images/modules/logos_page/GitHub-Mark.png") ∧
      att.get "mrkdwn_in" = some (.arr [.str "pretext"]) := by
  refine ⟨(buildPayload repository).toJson,
    ((buildPayload repository).Attachments.map SlackAttachment.toJson).headD .null,
    [AttachmentField.toJson
      { Title := "Description", Value := repository.Release.Description, Short := false }],
    rfl, ?_, ?_, rfl, ?_, rfl, ?_, ?_, ?_, ?_, ?_⟩
  · intro req hreq
    cases hp : net.parse s.Hook with
    | some e =>
      rw [Send_parse_error net s repository e hp] at hreq
      simp at hreq
    | none =>
      rw [Send_parse_ok net s repository hp] at hreq
      have hbody : (requestOf s repository).Body = (buildPayload repository).toJson := rfl
      cases hrt : net.roundTrip (requestOf s repository) with
      | error e =>
        rw [hrt] at hreq
        simp at hreq
        rw [hreq, hbody]
      | ok resp =>
        rw [hrt] at hreq
        by_cases hc : resp.StatusCode ≠ StatusOK
        · simp [hc] at hreq
          rw [hreq, hbody]
        · simp [hc] at hreq
          rw [hreq, hbody]
  · intro hp
    rw [Send_parse_ok net s repository hp]
    cases hrt : net.roundTrip (requestOf s repository) with
    | error e => rfl
    | ok resp =>
      by_cases hc : resp.StatusCode ≠ StatusOK
      · dsimp only; rw [if_pos hc]; rfl
      · dsimp only; rw [if_neg hc]; rfl
  · simp [Json.get, SlackPayload.toJson, buildPayload]
  · simp [Json.get, SlackAttachment.toJson, buildPayload]
  · intro f hf
    simp at hf
    rw [hf]; rfl
  · simp [Json.get, SlackAttachment.toJson, buildPayload]
  · simp [Json.get, SlackAttachment.toJson, buildPayload]
  · simp [Json.get, SlackAttachment.toJson, buildPayload]

/-- Instance of C8: for the example repository, with a hook that parses and a 200
answer, one request is made and its body is a document whose only key is
"attachments". -/
theorem payload_json_shape_witness :
    ∃ doc, (Send (netAnswering (respond "200 OK" 200 "ok")) sampleSender acmeWidget).calls.map
        Request.Body = [doc] ∧ doc.keys = some ["attachments"] :=
  match payload_json_shape (netAnswering (respond "200 OK" 200 "ok")) sampleSender acmeWidget with
  | ⟨doc, _, _, _, _, hsent, hkeys, _⟩ => ⟨doc, hsent rfl, hkeys⟩

end SlackNotifier
